import Mathlib

/-!
# Verification of the HPF chunk decoder (douglasgscofield/HPF)

This file is a shallow embedding of the chunk decoder and channel-data
reassembly/downsampling pipeline of the `HPFFile` class (the most recent
revision of the source, the one that implements downsampled CSV output),
together with proofs about it.

Modelling conventions:
* C++ machine integers become `Nat`/`Int`; all counters in the embedded code
  start at 0 and only increase, and the realistic value ranges are far below
  2^31, so no wrap-around arithmetic is needed except in the explicit
  `int32`/`int16` cast helpers.
* C++ `double` becomes `ℚ` (exact arithmetic; the claims about conversion are
  about which coefficients are used, not about rounding).
* The tinyxml2 adapter is an external collaborator: an XML document with
  repeated child records is embedded as a root-element name plus a list of
  records, each record being a list of (field-name, field-text) pairs.
* `exit(1)` on a malformed value becomes `Except.error` of an `HPFError`;
  clean completion is `Except.ok`.
-/

namespace HPF

/-- Error taxonomy; each constructor corresponds to one `exit(1)` site of the
source (the source prints a message and exits; the constructor name records
which check fired). -/
inductive HPFError where
  | wrongRoot (expected found : String)
  | duplicateChannelInfo
  | unknownField (name : String)
  | boolUnknown (s : String)
  | datatypeUnknown (s : String)
  | channelTypeUnknown (s : String)
  | eventTypeUnknown (s : String)
  | eventClassUnknown (s : String)
  | eventIdZero (s : String)
  | groupidMismatch
  | chunkTooLarge
deriving DecidableEq, Repr

/-- ASCII lower-casing, embedding `ToLower` (which maps `::tolower` over the
string; the inputs are ASCII field values). `Char.toLower` lowers exactly
the ASCII range, matching `::tolower` in the C locale. Stated over the
character list so that it evaluates by kernel reduction. -/
def ToLower (s : String) : String := String.mk (s.toList.map Char.toLower)

/-- Accumulate a leading run of decimal digits, stopping at the first
non-digit: the digit-consuming loop of `atol`/`atof`. -/
def digitsVal (acc : Nat) : List Char → Nat
  | [] => acc
  | c :: cs => if c.isDigit then digitsVal (acc * 10 + (c.toNat - 48)) cs else acc

/-- The leading run of decimal digits and the remaining characters. -/
def takeDigits : List Char → List Char × List Char
  | [] => ([], [])
  | c :: cs =>
    if c.isDigit then
      let (ds, r) := takeDigits cs
      (c :: ds, r)
    else ([], c :: cs)

/-- Value of a digit list, most significant first. -/
def natOfDigits (ds : List Char) : Nat := ds.foldl (fun a c => a * 10 + (c.toNat - 48)) 0

/-- Whitespace characters recognised by `isspace` in the C locale. -/
def isCSpace (c : Char) : Bool :=
  c = ' ' || c = '\t' || c = '\n' || c = '\x0b' || c = '\x0c' || c = '\r'

/-- Embedding of `atol`: skip leading whitespace, optional sign, then the
leading digit run; anything unparsable yields 0. -/
def atol_model (s : String) : Int :=
  let cs := s.toList.dropWhile isCSpace
  match cs with
  | '-' :: rest => - (digitsVal 0 rest : Int)
  | '+' :: rest => (digitsVal 0 rest : Int)
  | rest => (digitsVal 0 rest : Int)

/-- Embedding of `atof` on the decimal forms the descriptive records use:
optional sign, integer digits, optional fraction, optional decimal exponent.
The result is the exactly-represented rational value of the literal. -/
def atof_model (s : String) : ℚ :=
  let cs := s.toList.dropWhile isCSpace
  let (sgn, cs) :=
    match cs with
    | '-' :: rest => ((-1 : ℚ), rest)
    | '+' :: rest => ((1 : ℚ), rest)
    | rest => ((1 : ℚ), rest)
  let (ip, cs) := takeDigits cs
  let (fp, cs) :=
    match cs with
    | '.' :: rest => takeDigits rest
    | rest => ([], rest)
  let mant : ℚ := (natOfDigits ip : ℚ) + (natOfDigits fp : ℚ) / ((10 : ℚ) ^ fp.length)
  let e : Int :=
    match cs with
    | 'e' :: rest => atol_model (String.mk rest)
    | 'E' :: rest => atol_model (String.mk rest)
    | _ => 0
  if 0 ≤ e then sgn * mant * (10 : ℚ) ^ e.toNat
  else sgn * mant / (10 : ℚ) ^ (-e).toNat

/-- Truncating cast to `int32_t` (two's complement). -/
def int32_cast (v : Int) : Int := ((v + 2 ^ 31).emod (2 ^ 32)) - 2 ^ 31

/-- Truncating cast to `int16_t` (two's complement). -/
def int16_cast (v : Int) : Int := ((v + 2 ^ 15).emod (2 ^ 16)) - 2 ^ 15

/-- Embedding of `HPFFile::interpret_bool`: exactly the strings `True` and `False`,
case-sensitively; anything else is fatal. -/
def interpret_bool (s : String) : Except HPFError Bool :=
  if s = "True" then .ok true
  else if s = "False" then .ok false
  else .error (.boolUnknown s)

/-- Embedding of `HPFFile::interpret_datatype`: case-insensitive match accepting only
`int16`; anything else is fatal. -/
def interpret_datatype (s : String) : Except HPFError String :=
  let t := ToLower s
  if t = "int16" then .ok "Int16" else .error (.datatypeUnknown s)

/-- Embedding of `HPFFile::interpret_channel_type`: case-insensitive match accepting only
`randomdatachannel`. NOTE: this function exists in the source but is never
invoked anywhere — the channel-info assembly stores `ChannelType` as a raw
string without validation. -/
def interpret_channel_type (s : String) : Except HPFError String :=
  let t := ToLower s
  if t = "randomdatachannel" then .ok "RandomDataChannel"
  else .error (.channelTypeUnknown s)

/-- Embedding of `HPFFile::interpret_event_type`: case-insensitive match accepting only
`point`. -/
def interpret_event_type (s : String) : Except HPFError String :=
  let t := ToLower s
  if t = "point" then .ok "Point" else .error (.eventTypeUnknown s)

/-- Embedding of `HPFFile::interpret_event_class`: numeric value must be 1. -/
def interpret_event_class (s : String) : Except HPFError Int :=
  if atol_model s = 1 then .ok 1 else .error (.eventClassUnknown s)

/-- Embedding of `HPFFile::interpret_event_id`: the numeric value, which must be non-zero. -/
def interpret_event_id (s : String) : Except HPFError Int :=
  if atol_model s ≠ 0 then .ok (atol_model s) else .error (.eventIdZero s)

/-- Embedding of `HPFFile::interpret_int32`: `atol` then a truncating cast. -/
def interpret_int32 (s : String) : Int := int32_cast (atol_model s)

/-- Embedding of `HPFFile::interpret_int16`: `atol` then a truncating cast. -/
def interpret_int16 (s : String) : Int := int16_cast (atol_model s)

/-- Embedding of `HPFFile::interpret_double`: `atof`. -/
def interpret_double (s : String) : ℚ := atof_model s

/-- The per-channel descriptive record, `HPFFile::ChannelInfo` of the latest
revision. `vector::resize` value-initialises, so the defaults are the zero
values. `StartTime` is kept as the raw timestamp text (the source wraps it in
a `Time` struct whose parsed fields are never consulted by the conversion
pipeline). -/
structure ChannelInfo where
  _index : Nat := 0
  Name : String := ""
  Unit : String := ""
  ChannelType : String := ""
  AssignedTimeChannelIndex : Int := 0
  DataType : String := ""
  DataIndex : Int := 0
  StartTime : String := ""
  TimeIncrement : ℚ := 0
  RangeMin : Int := 0
  RangeMax : Int := 0
  DataScale : ℚ := 0
  DataOffset : ℚ := 0
  SensorScale : ℚ := 0
  SensorOffset : ℚ := 0
  PerChannelSampleRate : ℚ := 0
  PhysicalChannelNumber : Int := 0
  UsesSensorValues : Bool := false
  ThermocoupleType : String := ""
  TemperatureUnit : String := ""
  UseThermocoupleValues : Bool := false
deriving DecidableEq, Inhabited, Repr

/-- Embedding of `HPFFile::ChannelInfo::interpret_as_volts`: raw sample to physical value,
`static_cast<double>(p) * DataScale + DataOffset`. -/
def interpret_as_volts (c : ChannelInfo) (p : Int) : ℚ :=
  (p : ℚ) * c.DataScale + c.DataOffset

/-- Embedding of `HPFFile::ChannelData`: one channel's raw samples from the current data
chunk (int16 values). -/
structure ChannelData where
  _index : Nat := 0
  data : List Int := []
deriving DecidableEq, Inhabited, Repr

/-- One (field-name, field-text) pair delivered by the XML adapter. -/
abbrev XField := String × String

/-- One repeated descriptive record (one channel, one event definition). -/
abbrev XRecord := List XField

/-- The field dispatch of the channel-info assembly lambda: each XML child is
matched by name and assigned through the corresponding interpreter; an
unrecognised child name is fatal. `ChannelType`, `ThermocoupleType` and
`TemperatureUnit` are stored as raw strings (`MATCH_SET_STRING_VAR`), without
any vocabulary validation. -/
def apply_channelinfo_field (ci : ChannelInfo) (f : XField) :
    Except HPFError ChannelInfo :=
  if f.1 = "Name" then .ok { ci with Name := f.2 }
  else if f.1 = "Unit" then .ok { ci with Unit := f.2 }
  else if f.1 = "ChannelType" then .ok { ci with ChannelType := f.2 }
  else if f.1 = "AssignedTimeChannelIndex" then
    .ok { ci with AssignedTimeChannelIndex := interpret_int32 f.2 }
  else if f.1 = "DataType" then do
    let d ← interpret_datatype f.2
    .ok { ci with DataType := d }
  else if f.1 = "DataIndex" then .ok { ci with DataIndex := interpret_int32 f.2 }
  else if f.1 = "StartTime" then .ok { ci with StartTime := f.2 }
  else if f.1 = "TimeIncrement" then .ok { ci with TimeIncrement := interpret_double f.2 }
  else if f.1 = "RangeMin" then .ok { ci with RangeMin := interpret_int16 f.2 }
  else if f.1 = "RangeMax" then .ok { ci with RangeMax := interpret_int16 f.2 }
  else if f.1 = "DataScale" then .ok { ci with DataScale := interpret_double f.2 }
  else if f.1 = "DataOffset" then .ok { ci with DataOffset := interpret_double f.2 }
  else if f.1 = "SensorScale" then .ok { ci with SensorScale := interpret_double f.2 }
  else if f.1 = "SensorOffset" then .ok { ci with SensorOffset := interpret_double f.2 }
  else if f.1 = "PerChannelSampleRate" then
    .ok { ci with PerChannelSampleRate := interpret_double f.2 }
  else if f.1 = "PhysicalChannelNumber" then
    .ok { ci with PhysicalChannelNumber := interpret_int32 f.2 }
  else if f.1 = "UsesSensorValues" then do
    let b ← interpret_bool f.2
    .ok { ci with UsesSensorValues := b }
  else if f.1 = "ThermocoupleType" then .ok { ci with ThermocoupleType := f.2 }
  else if f.1 = "TemperatureUnit" then .ok { ci with TemperatureUnit := f.2 }
  else if f.1 = "UseThermocoupleValues" then do
    let b ← interpret_bool f.2
    .ok { ci with UseThermocoupleValues := b }
  else .error (.unknownField f.1)

/-- Processing of one repeated `ChannelInformation` record arriving at
arrival position `i`: the lambda first stamps `_index := i` and then folds
the field assignments over the record's children. -/
def apply_record (ci : ChannelInfo) (i : Nat) (r : XRecord) :
    Except HPFError ChannelInfo :=
  r.foldlM apply_channelinfo_field { ci with _index := i }

/-- The record loop of `interpret_chunk_channelinfo` in the latest revision:
`auto i = 0; for (auto chinfo : root) { ...channelinfo[i]... ; ++i; }`.
Each arriving record is written at its ARRIVAL position `i` (the earlier
revision instead read the record's own `DataIndex` field and wrote at that
position). `channeldata[i]._index = i` is stamped alongside. A record index
beyond the declared channel count is out-of-bounds `operator[]` in C++
(undefined behaviour); the embedding makes `List.set` a no-op there, and no
theorem below instantiates that situation. -/
def assemble_channelinfo (tbl : List ChannelInfo) (chd : List ChannelData)
    (i : Nat) : List XRecord → Except HPFError (List ChannelInfo × List ChannelData)
  | [] => .ok (tbl, chd)
  | r :: rs => do
    let c ← apply_record (tbl.getD i default) i r
    let d := { chd.getD i default with _index := i }
    assemble_channelinfo (tbl.set i c) (chd.set i d) (i + 1) rs

/-- One emitted table row. `data_line` is the value of the `data_lines`
counter when the row was emitted (the number printed when the row-index
column is enabled); `gidx` is the global sample index of the row, i.e. the
pre-increment counter value (`data_lines - 1` after the `++`); `_sample` is
the chunk-local sample position the raw values were read from (a model
annotation, mirroring the loop variable `i`); `values` are the physical
values, one per channel column, in column order. -/
structure Row where
  data_line : Nat := 0
  gidx : Nat := 0
  _sample : Nat := 0
  values : List ℚ := []
deriving DecidableEq, Inhabited, Repr

/-- One item written to `cout`: either the channel-names header line produced
by `table_header_csv(true)` (emitted lazily before the first data row) or one
data row. -/
inductive OutItem where
  | headerLine (names : List String)
  | row (r : Row)
deriving DecidableEq, Repr

/-- Session state: the cross-chunk members of `HPFFile`. Defaults are the
constructor-time values; `groupid` is an uninitialised `int32_t` in C++ and is
given 0 here (no claim reads it before channel-info establishes it).
`output` records what was streamed to `cout`. -/
structure HPFState where
  do_downsample : Bool := true
  downsample_count : Nat := 1000
  include_data_line : Bool := false
  groupid : Int := 0
  creatorid : Int := 0
  fileversion : Int := 0
  indexchunkoffset : Int := 0
  recdate : String := ""
  numberofchannels : Nat := 0
  channelinfo : List ChannelInfo := []
  channeldata : List ChannelData := []
  data_lines : Nat := 0
  table_data_lines : Nat := 0
  output : List OutItem := []
deriving DecidableEq, Repr

/-- The state constructed by `HPFFile`'s constructor. -/
def initState : HPFState := {}

/-- Header chunk content after the fixed fields have been sliced out of the
buffer and the XML document handed to the adapter: `rootName` is the name of
the document's root element (expected `RecordingDate`), `rootText` its text. -/
structure HeaderChunk where
  creatorid : Int := 0
  fileversion : Int := 0
  indexchunkoffset : Int := 0
  rootName : String := "RecordingDate"
  rootText : String := ""
deriving DecidableEq, Repr

/-- Channel-info chunk content: the fixed `groupid` and channel-count words
plus the adapter's view of the XML document (root element name, one record
per channel). -/
structure ChannelInfoChunk where
  groupid : Int := 0
  numberofchannels : Nat := 0
  rootName : String := "ChannelInformationData"
  records : List XRecord := []
deriving DecidableEq, Repr

/-- Data chunk content: fixed `groupid`, 64-bit data-start index and
channel-descriptor count, the dense `(offset, length)` table (byte units),
and the chunk buffer viewed as the int16 array `u.buffer16` (so a channel's
j-th sample is `payload[offset/2 + j]`). -/
structure DataChunk where
  groupid : Int := 0
  datastartindex : Int := 0
  channeldatacount : Nat := 0
  descriptors : List (Nat × Nat) := []
  payload : List Int := []
deriving DecidableEq, Repr

/-- A chunk as dispatched by `interpret_chunk`. Event-definition, event-data
and index chunks touch none of the state any claim below depends on (they
populate `eventdefinition`/`index` only), so the run model covers the three
kinds on the row-emission path. -/
inductive Chunk where
  | header (h : HeaderChunk)
  | channelinfo (c : ChannelInfoChunk)
  | data (d : DataChunk)
deriving DecidableEq, Repr

/-- Embedding of `interpret_chunk_header`: slices the fixed fields, then requires the XML
root to be `RecordingDate` and stores its text as the recording date. There
is NO duplicate-header detection: a second header chunk is re-interpreted and
overwrites the recording metadata. -/
def interpret_chunk_header (st : HPFState) (h : HeaderChunk) :
    Except HPFError HPFState :=
  if h.rootName ≠ "RecordingDate" then
    .error (.wrongRoot "RecordingDate" h.rootName)
  else
    .ok { st with
      creatorid := h.creatorid
      fileversion := h.fileversion
      indexchunkoffset := h.indexchunkoffset
      recdate := h.rootText }

/-- Embedding of `interpret_chunk_channelinfo` (latest revision): requires the
`ChannelInformationData` root, rejects a second channel-info chunk (table
already allocated), resizes `channelinfo` and `channeldata` to the declared
channel count (value-initialised) and runs the arrival-order record loop. -/
def interpret_chunk_channelinfo (st : HPFState) (c : ChannelInfoChunk) :
    Except HPFError HPFState :=
  if c.rootName ≠ "ChannelInformationData" then
    .error (.wrongRoot "ChannelInformationData" c.rootName)
  else if st.channelinfo.length ≠ 0 then .error .duplicateChannelInfo
  else do
    let (tbl, chd) ← assemble_channelinfo
      (List.replicate c.numberofchannels default)
      (List.replicate c.numberofchannels default) 0 c.records
    .ok { st with
      groupid := c.groupid
      numberofchannels := c.numberofchannels
      channelinfo := tbl
      channeldata := chd }

/-- The `DataType` struct's `interpret`: case-insensitive datatype name to
sample width in bytes; an unknown name is fatal. (A non-`int16` name only
triggers a warning print after this, not an exit.) -/
def datatype_size_bytes (s : String) : Except HPFError Nat :=
  let t := ToLower s
  if t = "int16" then .ok 2
  else if t = "uint16" then .ok 2
  else if t = "int32" then .ok 4
  else if t = "float" then .ok 4
  else if t = "double" then .ok 8
  else .error (.datatypeUnknown s)

/-- Per-data-chunk channel descriptor: the `(offset, length)` pair read from
the chunk plus the derived atom size and count (`length / width`, C++ integer
division). -/
structure ChannelDescriptor where
  _index : Nat := 0
  offset : Nat := 0
  length : Nat := 0
  _datatype : String := ""
  _atom_size : Nat := 2
  _num_atoms : Nat := 0
deriving DecidableEq, Inhabited, Repr

/-- The descriptor-building loop of `interpret_chunk_data`: for each
`i < channeldatacount`, read the `(offset, length)` pair and derive the atom
size from `channelinfo[i].DataType`. -/
def build_descriptors (ci : List ChannelInfo) (cdc : Nat)
    (descr : List (Nat × Nat)) : Except HPFError (List ChannelDescriptor) :=
  (List.range cdc).mapM fun i => do
    let od := descr.getD i (0, 0)
    let dtstr := (ci.getD i default).DataType
    let sz ← datatype_size_bytes dtstr
    .ok { _index := i, offset := od.1, length := od.2,
          _datatype := ToLower dtstr, _atom_size := sz,
          _num_atoms := od.2 / sz : ChannelDescriptor }

/-- The reassembly loop of `interpret_chunk_data`: for each descriptor `c`,
`channeldata[c._index].data` is resized to `c._num_atoms` and filled from
`u.buffer16[c.offset/2 ..]`. -/
def fill_channeldata (cds : List ChannelDescriptor) (payload : List Int)
    (chd : List ChannelData) : List ChannelData :=
  cds.foldl
    (fun acc c =>
      acc.set c._index
        { acc.getD c._index default with
          data := (List.range c._num_atoms).map
            (fun j => payload.getD (c.offset / 2 + j) 0) })
    chd

/-- The row loop of `table_from_data_csv`, processing samples
`i, i+1, ...` while `n` samples remain, threading the `data_lines` counter
`dl` and the emitted-row counter `tdl`. For each sample the counter is
incremented first; when downsampling, the row is skipped unless
`(data_lines - 1) % downsample_count == 0`, i.e. unless the pre-increment
counter value `dl` is a multiple of `k`. An emitted row carries one physical
value per channel column `j < noc`, converted with channel `j`'s own
coefficients. Returns (emitted rows, final `data_lines`, final
`table_data_lines`). -/
def emit_loop (noc : Nat) (ci : List ChannelInfo) (chd : List ChannelData)
    (k : Nat) (dosub : Bool) :
    Nat → Nat → Nat → Nat → List Row × Nat × Nat
  | _, dl, tdl, 0 => ([], dl, tdl)
  | i, dl, tdl, m + 1 =>
    if dosub ∧ ¬ dl % k = 0 then
      emit_loop noc ci chd k dosub (i + 1) (dl + 1) tdl m
    else
      let r : Row :=
        { data_line := dl + 1, gidx := dl, _sample := i,
          values := (List.range noc).map fun j =>
            interpret_as_volts (ci.getD j default)
              ((chd.getD j default).data.getD i 0) }
      let rest := emit_loop noc ci chd k dosub (i + 1) (dl + 1) (tdl + 1) m
      (r :: rest.1, rest.2)

/-- The C++ clear loop `for (auto c : channeldata) c.data.clear();` iterates
over the vector BY VALUE: each `clear()` empties a copy, and the member
vector is left unchanged. The observable effect embedded here is therefore
the identity. -/
def clear_channeldata_as_written (chd : List ChannelData) : List ChannelData :=
  chd

/-- Embedding of `interpret_chunk_data`: rejects the chunk if its group id differs from
the channel-info group id (the first statement of the function, before any
reassembly or output); otherwise builds the descriptors, reassembles the
per-channel samples, streams `table_from_data_csv` (which prints the
channel-names header line first iff no data row has been emitted yet) and
runs the per-copy clear loop. -/
def interpret_chunk_data (st : HPFState) (d : DataChunk) :
    Except HPFError HPFState :=
  if d.groupid ≠ st.groupid then .error .groupidMismatch
  else do
    let cds ← build_descriptors st.channelinfo d.channeldatacount d.descriptors
    let chd := fill_channeldata cds d.payload st.channeldata
    let n := (cds.getD 0 default)._num_atoms
    let headerItems : List OutItem :=
      if st.table_data_lines = 0 then
        [.headerLine ((List.range st.numberofchannels).map
          fun i => (st.channelinfo.getD i default).Name)]
      else []
    let res := emit_loop st.numberofchannels st.channelinfo chd
      st.downsample_count st.do_downsample 0 st.data_lines st.table_data_lines n
    .ok { st with
      channeldata := clear_channeldata_as_written chd
      data_lines := res.2.1
      table_data_lines := res.2.2
      output := st.output ++ headerItems ++ res.1.map OutItem.row }

/-- Embedding of `interpret_chunk`'s dispatch on the chunk kind tag. -/
def interpret_chunk (st : HPFState) : Chunk → Except HPFError HPFState
  | .header h => interpret_chunk_header st h
  | .channelinfo c => interpret_chunk_channelinfo st c
  | .data d => interpret_chunk_data st d

/-- The main loop `while (h.read_chunk());`: chunks are interpreted in
sequence; the first fatal error aborts the run. -/
def run (st : HPFState) : List Chunk → Except HPFError HPFState
  | [] => .ok st
  | c :: cs =>
    match interpret_chunk st c with
    | .error e => .error e
    | .ok st' => run st' cs

/-- Embedding of `HPFFile::buffersz`: 1024KB, the largest chunk the reader accepts. -/
def buffersz : Nat := 1024 * 1024

/-- What `read_chunk` does with one chunk-shaped region of the byte source,
classified by what the source code's control flow actually performs. -/
inductive ReadOutcome where
  | stop_clean
  | chunk_too_large
  | interpret_full
  | interpret_short
deriving DecidableEq, Repr

/-- The control flow of `read_chunk`, as a function of the number of bytes
still available in the stream and the chunk length the 16-byte prefix
declares:
* fewer than 16 bytes available: the prefix read fails, the file is closed
  and the loop ends (clean end-of-stream);
* declared length over `buffersz`: `exit(1)` before the body read;
* otherwise the declared length is read into the buffer and
  `interpret_chunk()` is called — the success of that body read is NEVER
  checked, so when fewer bytes than declared remain, the partially-filled
  buffer (its tail holding stale bytes of the previous chunk) is interpreted
  all the same. -/
def read_chunk_outcome (avail declared : Nat) : ReadOutcome :=
  if avail < 16 then .stop_clean
  else if buffersz < declared then .chunk_too_large
  else if avail < declared then .interpret_short
  else .interpret_full

/-- Whether the outcome is an `exit(1)`. -/
def ReadOutcome.is_fatal : ReadOutcome → Bool
  | .chunk_too_large => true
  | _ => false

/-- The process exit status that follows each read outcome (assuming the
interpretation itself raises no error): `chunk_too_large` is `exit(1)`; after
a full or partial body read the loop continues and, once a prefix read fails,
`main` falls off the loop and returns 0. In particular a partial (truncated)
final chunk still ends the process with status 0. -/
def exit_code_of_outcome : ReadOutcome → Nat
  | .chunk_too_large => 1
  | _ => 0

/-- One data chunk as seen by the row emitter: the channel count, the
metadata table and reassembled channel data in effect, and the number of
samples the chunk carries (`cd[0]._num_atoms`). -/
structure ChunkSpec where
  noc : Nat := 0
  ci : List ChannelInfo := []
  chd : List ChannelData := []
  n : Nat := 0
deriving DecidableEq, Repr

/-- The row emission of a sequence of data chunks: `emit_loop` is invoked
once per chunk exactly as `interpret_chunk_data` invokes it, with the
`data_lines` / `table_data_lines` counters threaded from chunk to chunk and
never reset. -/
def emit_chunks_rows (k : Nat) : Nat → Nat → List ChunkSpec → List Row
  | _, _, [] => []
  | dl, tdl, s :: ss =>
    let res := emit_loop s.noc s.ci s.chd k true 0 dl tdl s.n
    res.1 ++ emit_chunks_rows k res.2.1 res.2.2 ss

/-- Test of a chunk for being a channel-info chunk declaring a positive
channel count. -/
def Chunk.isPosChannelInfo : Chunk → Bool
  | .channelinfo c => decide (0 < c.numberofchannels)
  | _ => false

/-! ## Supporting lemmas -/

/-- The emitted global sample indices of one chunk of `n` samples, starting
from counter value `dl`, are exactly the multiples of `k` among
`dl, dl+1, ..., dl+n-1`. -/
theorem emit_loop_map_gidx (noc : Nat) (ci : List ChannelInfo)
    (chd : List ChannelData) (k : Nat) :
    ∀ (n i dl tdl : Nat),
      (emit_loop noc ci chd k true i dl tdl n).1.map Row.gidx
        = (List.range' dl n).filter (fun m => m % k == 0) := by
  intro n
  induction n with
  | zero => intro i dl tdl; simp [emit_loop]
  | succ m ih =>
    intro i dl tdl
    rw [List.range'_succ]
    by_cases h : dl % k = 0
    · simp [emit_loop, h, List.filter_cons, ih]
    · simp [emit_loop, h, List.filter_cons, ih]

/-- The `data_lines` counter advances by exactly the sample count of the
chunk, whether or not rows were skipped. -/
theorem emit_loop_final_dl (noc : Nat) (ci : List ChannelInfo)
    (chd : List ChannelData) (k : Nat) (dosub : Bool) :
    ∀ (n i dl tdl : Nat),
      (emit_loop noc ci chd k dosub i dl tdl n).2.1 = dl + n := by
  intro n
  induction n with
  | zero => intro i dl tdl; simp [emit_loop]
  | succ m ih =>
    intro i dl tdl
    by_cases h : dosub ∧ ¬ dl % k = 0
    · simp only [emit_loop, if_pos h, ih]
      omega
    · simp only [emit_loop, if_neg h, ih]
      omega

/-- Chunk-sequence version of `emit_loop_map_gidx`: the emitted indices over
a sequence of chunks, with the counter threaded across chunk boundaries, are
the multiples of `k` in `dl, ..., dl + total - 1`. -/
theorem emit_chunks_rows_map_gidx (k : Nat) :
    ∀ (specs : List ChunkSpec) (dl tdl : Nat),
      (emit_chunks_rows k dl tdl specs).map Row.gidx
        = (List.range' dl (specs.map ChunkSpec.n).sum).filter
            (fun m => m % k == 0) := by
  intro specs
  induction specs with
  | nil => intro dl tdl; simp [emit_chunks_rows]
  | cons s ss ih =>
    intro dl tdl
    simp only [emit_chunks_rows, List.map_append, emit_loop_map_gidx, ih,
      emit_loop_final_dl, List.map_cons, List.sum_cons]
    rw [← List.filter_append, List.range'_append_1, Nat.add_comm]

/-- Reading an element of a mapped range below the bound. -/
theorem getD_map_range {α : Type} (f : Nat → α) (d : α) (noc j : Nat)
    (hj : j < noc) : ((List.range noc).map f).getD j d = f j := by
  rw [List.getD_eq_getElem?_getD, List.getElem?_map, List.getElem?_range hj]
  rfl

/-- Record assembly preserves the length of the channel table. -/
theorem assemble_channelinfo_len :
    ∀ (rs : List XRecord) (tbl : List ChannelInfo) (chd : List ChannelData)
      (i : Nat) (out : List ChannelInfo × List ChannelData),
      assemble_channelinfo tbl chd i rs = .ok out → out.1.length = tbl.length := by
  intro rs
  induction rs with
  | nil =>
    intro tbl chd i out h
    simp only [assemble_channelinfo, Except.ok.injEq] at h
    cases h
    rfl
  | cons r rest ih =>
    intro tbl chd i out h
    simp only [assemble_channelinfo] at h
    cases hrec : apply_record (tbl.getD i default) i r with
    | error e =>
      rw [hrec] at h
      exact absurd h (by simp [Bind.bind, Except.bind])
    | ok c =>
      rw [hrec] at h
      simp only [Bind.bind, Except.bind] at h
      have := ih (tbl.set i c) _ (i + 1) out h
      simpa using this

/-- A successful channel-info interpretation can only start from an empty
channel table. -/
theorem interpret_chunk_channelinfo_ok_src_empty (st : HPFState)
    (c : ChannelInfoChunk) (st' : HPFState)
    (h : interpret_chunk_channelinfo st c = .ok st') :
    st.channelinfo.length = 0 := by
  by_contra hne
  simp [interpret_chunk_channelinfo, hne] at h
  split at h
  · exact absurd h (by simp)
  · exact absurd h (by simp)

/-- A successful channel-info interpretation sets the channel table to the
declared channel count. -/
theorem interpret_chunk_channelinfo_ok_len (st : HPFState)
    (c : ChannelInfoChunk) (st' : HPFState)
    (h : interpret_chunk_channelinfo st c = .ok st') :
    st'.channelinfo.length = c.numberofchannels := by
  unfold interpret_chunk_channelinfo at h
  split at h
  · exact absurd h (by simp)
  · split at h
    · exact absurd h (by simp)
    · cases hasm : assemble_channelinfo
        (List.replicate c.numberofchannels default)
        (List.replicate c.numberofchannels default) 0 c.records with
      | error e =>
        rw [hasm] at h
        exact absurd h (by simp [Bind.bind, Except.bind])
      | ok out =>
        rw [hasm] at h
        simp only [Bind.bind, Except.bind, Except.ok.injEq] at h
        have hlen := assemble_channelinfo_len c.records _ _ 0 out hasm
        cases h
        simpa using hlen

/-- Header interpretation never touches the channel table, the output, or
the data-line counters. -/
theorem interpret_chunk_header_frame (st : HPFState) (h : HeaderChunk)
    (st' : HPFState) (hok : interpret_chunk_header st h = .ok st') :
    st'.channelinfo = st.channelinfo ∧ st'.output = st.output ∧
      st'.data_lines = st.data_lines := by
  unfold interpret_chunk_header at hok
  split at hok
  · exact absurd hok (by simp)
  · cases hok; exact ⟨rfl, rfl, rfl⟩

/-- Channel-info interpretation never touches the output or the data-line
counters. -/
theorem interpret_chunk_channelinfo_frame (st : HPFState)
    (c : ChannelInfoChunk) (st' : HPFState)
    (hok : interpret_chunk_channelinfo st c = .ok st') :
    st'.output = st.output ∧ st'.data_lines = st.data_lines := by
  unfold interpret_chunk_channelinfo at hok
  split at hok
  · exact absurd hok (by simp)
  · split at hok
    · exact absurd hok (by simp)
    · cases hasm : assemble_channelinfo
        (List.replicate c.numberofchannels default)
        (List.replicate c.numberofchannels default) 0 c.records with
      | error e =>
        rw [hasm] at hok
        exact absurd hok (by simp [Bind.bind, Except.bind])
      | ok out =>
        rw [hasm] at hok
        simp only [Bind.bind, Except.bind, Except.ok.injEq] at hok
        cases hok
        exact ⟨rfl, rfl⟩

/-- Data-chunk interpretation never touches the channel table. -/
theorem interpret_chunk_data_frame (st : HPFState) (d : DataChunk)
    (st' : HPFState) (hok : interpret_chunk_data st d = .ok st') :
    st'.channelinfo = st.channelinfo := by
  unfold interpret_chunk_data at hok
  split at hok
  · exact absurd hok (by simp)
  · cases hds : build_descriptors st.channelinfo d.channeldatacount
      d.descriptors with
    | error e =>
      rw [hds] at hok
      exact absurd hok (by simp [Bind.bind, Except.bind])
    | ok cds =>
      rw [hds] at hok
      simp only [Bind.bind, Except.bind, Except.ok.injEq] at hok
      cases hok
      rfl

/-- Invariant behind the duplicate-channel-info check: along any successful
run, at most one channel-info chunk with a positive channel count is
interpreted when starting from an empty channel table, and none when starting
from a non-empty one. -/
theorem run_countP_channelinfo :
    ∀ (cs : List Chunk) (st st' : HPFState), run st cs = .ok st' →
      cs.countP Chunk.isPosChannelInfo
        ≤ (if st.channelinfo.length = 0 then 1 else 0) := by
  intro cs
  induction cs with
  | nil => intro st st' _; simp
  | cons c rest ih =>
    intro st st' hrun
    unfold run at hrun
    cases hstep : interpret_chunk st c with
    | error e => rw [hstep] at hrun; exact absurd hrun (by simp)
    | ok st1 =>
      rw [hstep] at hrun
      have hrest := ih st1 st' hrun
      cases c with
      | header h =>
        have hframe := interpret_chunk_header_frame st h st1 hstep
        rw [List.countP_cons]
        simp only [Chunk.isPosChannelInfo, if_neg (by decide : ¬ false = true)]
        rw [hframe.1] at hrest
        omega
      | data d =>
        have hframe := interpret_chunk_data_frame st d st1 hstep
        rw [List.countP_cons]
        simp only [Chunk.isPosChannelInfo, if_neg (by decide : ¬ false = true)]
        rw [hframe] at hrest
        omega
      | channelinfo ci =>
        have hempty := interpret_chunk_channelinfo_ok_src_empty st ci st1 hstep
        have hlen := interpret_chunk_channelinfo_ok_len st ci st1 hstep
        rw [List.countP_cons]
        simp only [Chunk.isPosChannelInfo, decide_eq_true_eq]
        rw [hlen] at hrest
        rw [if_pos hempty]
        by_cases hpos : 0 < ci.numberofchannels
        · have hne : ¬ ci.numberofchannels = 0 := by omega
          rw [if_neg hne] at hrest
          rw [if_pos hpos]
          omega
        · have hz : ci.numberofchannels = 0 := by omega
          rw [if_pos hz] at hrest
          rw [if_neg hpos]
          omega

/-! ## Concrete fixtures -/

/-- A valid header chunk. -/
def hdrFirst : HeaderChunk := { creatorid := 1, rootText := "FIRST" }

/-- A second valid header chunk with different contents. -/
def hdrSecond : HeaderChunk := { creatorid := 2, rootText := "SECOND" }

/-- A channel record declaring `DataIndex` 1 (with valid datatype and
coefficients). -/
def recChanB : XRecord :=
  [("Name", "ChanB"), ("DataIndex", "1"), ("DataType", "Int16"),
   ("DataScale", "0.5"), ("DataOffset", "0")]

/-- A channel record declaring `DataIndex` 0. -/
def recChanA : XRecord :=
  [("Name", "ChanA"), ("DataIndex", "0"), ("DataType", "Int16"),
   ("DataScale", "2.0"), ("DataOffset", "1.0")]

/-- A channel-info chunk whose two records arrive out of declared-index
order: the record declaring `DataIndex` 1 arrives first. -/
def ciChunkOutOfOrder : ChannelInfoChunk :=
  { groupid := 7, numberofchannels := 2, records := [recChanB, recChanA] }

/-- A channel-info chunk whose records arrive in declared-index order. -/
def ciChunkInOrder : ChannelInfoChunk :=
  { groupid := 7, numberofchannels := 2, records := [recChanA, recChanB] }

/-- A channel-info chunk whose single record carries a `ChannelType` value
outside the supported vocabulary. -/
def ciChunkBogusType : ChannelInfoChunk :=
  { groupid := 1, numberofchannels := 1,
    records := [[("ChannelType", "Bogus")]] }

/-- A channel-info chunk declaring zero channels (no records). -/
def ciChunkZero : ChannelInfoChunk := { groupid := 3 }

/-- Channel 0 of the worked example: scale 2, offset 1. -/
def chan0Ex : ChannelInfo :=
  { _index := 0, Name := "c0", DataType := "Int16", DataScale := 2, DataOffset := 1 }

/-- Channel 1 of the worked example: scale 1/2, offset 0. -/
def chan1Ex : ChannelInfo :=
  { _index := 1, Name := "c1", DataType := "Int16", DataScale := 1/2, DataOffset := 0 }

/-- Session state right after a two-channel channel-info chunk of group 1
(output every line: downsample count 1). -/
def stWithChannels : HPFState := {
  groupid := 1
  downsample_count := 1
  numberofchannels := 2
  channelinfo := [chan0Ex, chan1Ex]
  channeldata := [{ _index := 0 }, { _index := 1 }] }

/-- A data chunk of group 1 carrying 3 samples per channel: channel 0 at
byte offset 24 holds 10, 20, 30 and channel 1 at byte offset 30 holds
100, 200, 300 (the buffer viewed as int16 words). -/
def dataChunkEx : DataChunk := {
  groupid := 1
  channeldatacount := 2
  descriptors := [(24, 6), (30, 6)]
  payload := (List.replicate 12 0) ++ [10, 20, 30, 100, 200, 300] }

/-- The same data chunk with a group id different from the session's. -/
def dataChunkWrongGroup : DataChunk := { dataChunkEx with groupid := 9 }

/-- Reassembled channel data of the worked example. -/
def chdEx : List ChannelData :=
  [{ _index := 0, data := [10, 20, 30] }, { _index := 1, data := [100, 200, 300] }]

/-- The session state produced by running a header chunk followed by a
zero-channel channel-info chunk. -/
def stHdrCi : HPFState := { creatorid := 1, recdate := "FIRST", groupid := 3 }

/-! ## Claims -/

/-- C1: for every sequence of data chunks and every downsampling factor
`k ≥ 1`, a global sample index is emitted as an output row iff the
`data_lines` counter, at its pre-increment value, is divisible by `k`; the
counter is threaded across chunks without reset, so the emitted global
indices are exactly the multiples of `k` below the total sample count,
however the samples are split across chunks, and the very first sample of
the file is always emitted. -/
theorem claim_C1_downsampling (k : Nat) (hk : 0 < k) (specs : List ChunkSpec) :
    (emit_chunks_rows k 0 0 specs).map Row.gidx
        = (List.range ((specs.map ChunkSpec.n).sum)).filter (fun m => m % k == 0)
      ∧ (0 < (specs.map ChunkSpec.n).sum →
          0 ∈ (emit_chunks_rows k 0 0 specs).map Row.gidx) := by
  have h1 : (emit_chunks_rows k 0 0 specs).map Row.gidx
      = (List.range ((specs.map ChunkSpec.n).sum)).filter (fun m => m % k == 0) := by
    rw [List.range_eq_range']
    exact emit_chunks_rows_map_gidx k specs 0 0
  refine ⟨h1, fun hpos => ?_⟩
  rw [h1, List.mem_filter, List.mem_range]
  exact ⟨hpos, by simp⟩

/-- A concrete split of 5 samples into data chunks of 2 and 3 samples. -/
def specsC1 : List ChunkSpec := [{ n := 2 }, { n := 3 }]

/-- C1 witness: factor 2 over chunks of 2 and 3 samples. -/
theorem claim_C1_downsampling_witness :
    0 < 2 ∧
      ((emit_chunks_rows 2 0 0 specsC1).map Row.gidx
          = (List.range ((specsC1.map ChunkSpec.n).sum)).filter
              (fun m => m % 2 == 0)
        ∧ (0 < (specsC1.map ChunkSpec.n).sum →
            0 ∈ (emit_chunks_rows 2 0 0 specsC1).map Row.gidx)) :=
  ⟨by decide, claim_C1_downsampling 2 (by decide) specsC1⟩

/-- C2 (code bug): with at least the 16-byte prefix available but fewer
bytes than the declared chunk length (here 100 available, 200 declared), the
reader does not fail: the control flow of `read_chunk` reaches
`interpret_chunk()` on the partially-filled buffer (there is no check on the
body read and no truncation error in the program), and the run then ends
with exit status 0 — not the `TruncatedChunk` error and non-zero exit the
claim requires. -/
theorem claim_C2_truncation_eval :
    read_chunk_outcome 100 200 = ReadOutcome.interpret_short
      ∧ (read_chunk_outcome 100 200).is_fatal = false
      ∧ exit_code_of_outcome (read_chunk_outcome 100 200) = 0 := by
  decide

/-- C3 (code bug): in the latest revision the channel-info assembly places
each record at its ARRIVAL position, not at the position its `DataIndex`
field declares: with two records arriving out of index order, table position
0 holds the record that declares `DataIndex` 1 (named `ChanB`), and table
position 1 the record that declares `DataIndex` 0 — the earlier revision
placed by declared index. -/
theorem claim_C3_placement_eval :
    (interpret_chunk_channelinfo initState ciChunkOutOfOrder).map
        (fun s => ((s.channelinfo.getD 0 default).Name,
                   (s.channelinfo.getD 0 default).DataIndex,
                   (s.channelinfo.getD 1 default).Name,
                   (s.channelinfo.getD 1 default).DataIndex))
      = Except.ok ("ChanB", 1, "ChanA", 0) := by
  rfl

/-- C4 counterexample: an input containing a second header chunk is NOT
rejected — the run completes successfully and the second header has
overwritten the recording date, refuting the claim that any duplicate
header chunk fails fatally. -/
theorem claim_C4_counterexample :
    (run initState [Chunk.header hdrFirst, Chunk.header hdrSecond]).map
        HPFState.recdate = Except.ok "SECOND" := by
  rfl

/-- C4 (amended): only a duplicate CHANNEL-INFO chunk is detected: a
channel-info chunk arriving when the channel table is already non-empty
fails fatally with the duplicate error, and consequently every successful
run interprets at most one channel-info chunk with a positive channel
count; a second header chunk is not detected (it is silently
re-interpreted). -/
theorem claim_C4_duplicates_amended :
    (∀ (st : HPFState) (c : ChannelInfoChunk),
        st.channelinfo ≠ [] → c.rootName = "ChannelInformationData" →
        interpret_chunk_channelinfo st c = .error .duplicateChannelInfo)
    ∧ (∀ (cs : List Chunk) (st' : HPFState), run initState cs = .ok st' →
        cs.countP Chunk.isPosChannelInfo ≤ 1) := by
  constructor
  · intro st c hne hroot
    unfold interpret_chunk_channelinfo
    rw [if_neg (by simp [hroot]), if_pos (by simp [hne])]
  · intro cs st' hrun
    have h := run_countP_channelinfo cs initState st' hrun
    simpa [initState] using h

/-- C4 witness: the duplicate rejection fires on a concrete non-empty state,
and the run-level count bound holds on a concrete successful run. -/
theorem claim_C4_duplicates_witness :
    interpret_chunk_channelinfo stWithChannels ciChunkInOrder
        = .error .duplicateChannelInfo
      ∧ ([] : List Chunk).countP Chunk.isPosChannelInfo ≤ 1 :=
  ⟨claim_C4_duplicates_amended.1 stWithChannels ciChunkInOrder (by decide) rfl,
   claim_C4_duplicates_amended.2 [] initState rfl⟩

/-- C5: a data chunk whose group id differs from the session group id (the
one the channel-info chunk established) is rejected with the group-mismatch
error by the first statement of `interpret_chunk_data`, before any
reassembly or row emission; a data chunk is interpreted successfully only
when its group id equals the session group id. -/
theorem claim_C5_group_mismatch (st : HPFState) (d : DataChunk) :
    (d.groupid ≠ st.groupid →
        interpret_chunk_data st d = .error .groupidMismatch)
      ∧ (∀ st', interpret_chunk_data st d = .ok st' → d.groupid = st.groupid) := by
  constructor
  · intro h
    unfold interpret_chunk_data
    rw [if_pos h]
  · intro st' hok
    by_contra hne
    unfold interpret_chunk_data at hok
    rw [if_pos hne] at hok
    exact absurd hok (by simp)

/-- C5 witness: the mismatch rejection at a concrete state and chunk. -/
theorem claim_C5_group_mismatch_witness :
    interpret_chunk_data stWithChannels dataChunkWrongGroup
      = .error .groupidMismatch :=
  (claim_C5_group_mismatch stWithChannels dataChunkWrongGroup).1 (by decide)

/-- C6: every emitted row's value in channel column `j` equals
`raw * scale + offset` where `raw` is channel `j`'s raw sample at the row's
sample position and `scale`/`offset` are the `DataScale`/`DataOffset` of the
channel whose descriptor index is `j` — never a neighbouring channel's
coefficients. -/
theorem claim_C6_conversion (noc : Nat) (ci : List ChannelInfo)
    (chd : List ChannelData) (k : Nat) (dosub : Bool) :
    ∀ (n i dl tdl : Nat) (r : Row),
      r ∈ (emit_loop noc ci chd k dosub i dl tdl n).1 → ∀ j : Nat, j < noc →
      r.values.getD j 0
        = ((chd.getD j default).data.getD r._sample 0 : ℚ)
            * (ci.getD j default).DataScale + (ci.getD j default).DataOffset := by
  intro n
  induction n with
  | zero =>
    intro i dl tdl r hr
    simp [emit_loop] at hr
  | succ m ih =>
    intro i dl tdl r hr j hj
    simp only [emit_loop] at hr
    by_cases hskip : dosub ∧ ¬ dl % k = 0
    · rw [if_pos hskip] at hr
      exact ih (i + 1) (dl + 1) tdl r hr j hj
    · rw [if_neg hskip] at hr
      rcases List.mem_cons.mp hr with hhead | htail
      · subst hhead
        simp only [getD_map_range _ _ noc j hj, interpret_as_volts]
      · exact ih (i + 1) (dl + 1) (tdl + 1) r htail j hj

/-- The row the emit loop of the worked example produces at counter value
`dl` and chunk-local sample `i`. -/
def mkRowEx (dl i : Nat) : Row :=
  { data_line := dl + 1, gidx := dl, _sample := i,
    values := (List.range 2).map fun j =>
      interpret_as_volts ([chan0Ex, chan1Ex].getD j default)
        ((chdEx.getD j default).data.getD i 0) }

/-- C6 witness: the second emitted row of the worked example, channel
column 1, uses channel 1's coefficients on channel 1's raw sample. -/
theorem claim_C6_conversion_witness :
    (mkRowEx 1 1).values.getD 1 0
      = ((chdEx.getD 1 default).data.getD (mkRowEx 1 1)._sample 0 : ℚ)
          * ([chan0Ex, chan1Ex].getD 1 default).DataScale
          + ([chan0Ex, chan1Ex].getD 1 default).DataOffset := by
  have hrows : (emit_loop 2 [chan0Ex, chan1Ex] chdEx 1 true 0 0 0 3).1
      = [mkRowEx 0 0, mkRowEx 1 1, mkRowEx 2 2] := by
    rfl
  have hmem : mkRowEx 1 1 ∈ (emit_loop 2 [chan0Ex, chan1Ex] chdEx 1 true 0 0 0 3).1 := by
    rw [hrows]
    exact List.mem_cons_of_mem _ (List.mem_cons_self _ _)
  exact claim_C6_conversion 2 [chan0Ex, chan1Ex] chdEx 1 true 3 0 0 0 (mkRowEx 1 1)
    hmem 1 (by omega)

/-- C7 counterexample: an input consisting of only a header chunk and a
channel-info chunk (two channels, zero data chunks) decodes successfully but
the output is EMPTY — the channel-names header row is not emitted, refuting
the claim that the output contains the header row. (The header row is only
printed lazily by `table_from_data_csv`, which runs only on a data chunk.) -/
theorem claim_C7_counterexample :
    (run initState [Chunk.header hdrFirst, Chunk.channelinfo ciChunkInOrder]).map
        HPFState.output = Except.ok [] := by
  rfl

/-- C7 (amended): an input of only a header chunk and a channel-info chunk
decodes successfully with zero data rows, but the output is entirely empty:
the channel-names header row is emitted lazily at the first data chunk, so
with zero data chunks no header row appears either. -/
theorem claim_C7_no_data_amended (h : HeaderChunk) (c : ChannelInfoChunk)
    (st' : HPFState)
    (hrun : run initState [Chunk.header h, Chunk.channelinfo c] = .ok st') :
    st'.output = [] ∧ st'.data_lines = 0 := by
  simp only [run] at hrun
  cases h1 : interpret_chunk initState (Chunk.header h) with
  | error e =>
    rw [h1] at hrun
    exact absurd hrun (by simp)
  | ok st1 =>
    rw [h1] at hrun
    simp only [] at hrun
    cases h2 : interpret_chunk st1 (Chunk.channelinfo c) with
    | error e =>
      rw [h2] at hrun
      exact absurd hrun (by simp)
    | ok st2 =>
      rw [h2] at hrun
      simp only [Except.ok.injEq] at hrun
      have f1 := interpret_chunk_header_frame initState h st1 h1
      have f2 := interpret_chunk_channelinfo_frame st1 c st2 h2
      cases hrun
      refine ⟨?_, ?_⟩
      · rw [f2.1, f1.2.1]
        rfl
      · rw [f2.2, f1.2.2]
        rfl

/-- C7 witness: the amended statement at a concrete header and
channel-info chunk. -/
theorem claim_C7_no_data_witness : stHdrCi.output = [] ∧ stHdrCi.data_lines = 0 :=
  claim_C7_no_data_amended hdrFirst ciChunkZero stHdrCi (by rfl)

/-- C8: a chunk whose declared total length exceeds the 1024KB buffer bound
is rejected fatally before the body read (once the 16-byte prefix could be
read at all), and a chunk body is only ever read and interpreted when the
declared length is within the bound. -/
theorem claim_C8_too_large (avail declared : Nat) :
    (16 ≤ avail → buffersz < declared →
        read_chunk_outcome avail declared = .chunk_too_large)
      ∧ ((read_chunk_outcome avail declared = .interpret_full ∨
          read_chunk_outcome avail declared = .interpret_short) →
          declared ≤ buffersz) := by
  unfold read_chunk_outcome
  constructor
  · intro h16 hbig
    rw [if_neg (by omega), if_pos hbig]
  · intro hcase
    by_cases h16 : avail < 16
    · rw [if_pos h16] at hcase
      rcases hcase with hh | hh <;> simp at hh
    · rw [if_neg h16] at hcase
      by_cases hbig : buffersz < declared
      · rw [if_pos hbig] at hcase
        rcases hcase with hh | hh <;> simp at hh
      · omega

/-- C8 witness: a declared length one past the bound, with the prefix
available, is rejected. -/
theorem claim_C8_too_large_witness :
    read_chunk_outcome 20 1048577 = ReadOutcome.chunk_too_large :=
  (claim_C8_too_large 20 1048577).1 (by decide) (by decide)

/-- C9 (code bug): boolean fields and the data-type and event-type
vocabularies are enforced exactly as claimed, but the CHANNEL-TYPE
vocabulary is not: the assembly stores an out-of-vocabulary `ChannelType`
value (here `Bogus`) without error, even though the validator
`interpret_channel_type` — present in the source but never invoked — would
reject that very value. -/
theorem claim_C9_vocabulary_eval :
    (interpret_chunk_channelinfo initState ciChunkBogusType).map
        (fun s => (s.channelinfo.getD 0 default).ChannelType)
      = Except.ok "Bogus"
    ∧ interpret_channel_type "Bogus"
        = Except.error (.channelTypeUnknown "Bogus")
    ∧ interpret_bool "true" = Except.error (.boolUnknown "true")
    ∧ interpret_bool "True" = Except.ok true
    ∧ interpret_datatype "INT16" = Except.ok "Int16"
    ∧ interpret_datatype "Int32" = Except.error (.datatypeUnknown "Int32")
    ∧ interpret_event_type "POINT" = Except.ok "Point"
    ∧ interpret_event_type "ranged" = Except.error (.eventTypeUnknown "ranged") :=
  ⟨rfl, rfl, rfl, rfl, rfl, rfl, rfl, rfl⟩

/-- C10 (code bug): after a data chunk's rows are emitted, the per-channel
raw sample buffers are NOT released: the clear loop iterates over the vector
by value, so each `clear()` empties a copy. Interpreting the worked-example
chunk leaves both channels' buffers still holding the chunk's samples. -/
theorem claim_C10_buffers_eval :
    (interpret_chunk_data stWithChannels dataChunkEx).map
        (fun s => ((s.channeldata.getD 0 default).data,
                   (s.channeldata.getD 1 default).data))
      = Except.ok ([10, 20, 30], [100, 200, 300]) := by
  rfl

end HPF

